import Mathlib

/-!
Shallow embedding of the reminder scheduling and de-duplication engine of the
`obrzovane_notifications_bot` repository (files `services/notification_service.py`,
`models/event.py`, `models/user.py`, `database.py`, `utils/scheduler.py`),
together with theorems checking the natural-language specification against it.

Conventions of the embedding:
* machine integers are `Nat`/`Int`;
* the SQLite database is a record of lists of rows (`DBState`); the UNIQUE
  constraint of `sent_notifications` is modelled by `insertSentNotification`
  returning an `Except` value that errors exactly when the key is present,
  mirroring the `IntegrityError` the driver raises;
* Telegram delivery is modelled by an oracle `deliverOk : Nat → Bool` saying
  which chat ids accept a message during the current fan-out; side effects are
  recorded in an explicit trace of `Effect`s;
* Python `datetime` values are modelled by `PyDateTime` (calendar fields plus
  an optional UTC offset), `datetime.fromisoformat` by `pyFromIso` (covering
  the `YYYY-MM-DD[*HH:MM[:SS[.ffffff]]][+HH:MM]` shapes the repository
  produces), and instants are compared through seconds counted with the
  standard civil-calendar day formula.
-/

/-! ### Strings as SQLite TEXT values

SQLite compares TEXT with memcmp on UTF-8 bytes, which coincides with the
lexicographic order on the codepoint list; that order is modelled here
directly on the character lists. -/

/-- Lexicographic order on character lists by codepoint, with a strict prefix
smaller than its extensions: the order memcmp induces on UTF-8 strings. -/
def charListLe : List Char → List Char → Bool
  | [], _ => true
  | _ :: _, [] => false
  | a :: as, b :: bs =>
    if a.toNat < b.toNat then true
    else if b.toNat < a.toNat then false
    else charListLe as bs

/-- Boolean form of the string order used for SQL comparison and `ORDER BY`
on the TEXT column `event_datetime`. -/
def sqlTextLe (a b : String) : Bool := charListLe a.data b.data

/-! ### Python datetime model -/

/-- Model of a Python `datetime.datetime` value: calendar fields plus an
optional fixed UTC offset in seconds (`tzinfo`); `none` is a naive value. -/
structure PyDateTime where
  year : Nat
  month : Nat
  day : Nat
  hour : Nat
  minute : Nat
  second : Nat
  tzOffset : Option Int
  deriving Repr, DecidableEq

/-- Numeric value of an ASCII digit, `none` on any other character. -/
def digitVal (c : Char) : Option Nat :=
  if 48 ≤ c.toNat && c.toNat ≤ 57 then some (c.toNat - 48) else none

/-- Parse exactly two ASCII digits. -/
def parseTwoDigits : List Char → Option (Nat × List Char)
  | c1 :: c2 :: cs =>
    match digitVal c1, digitVal c2 with
    | some a, some b => some (a * 10 + b, cs)
    | _, _ => none
  | _ => none

/-- Parse exactly four ASCII digits. -/
def parseFourDigits : List Char → Option (Nat × List Char)
  | c1 :: c2 :: c3 :: c4 :: cs =>
    match digitVal c1, digitVal c2, digitVal c3, digitVal c4 with
    | some a, some b, some c, some d => some (a * 1000 + b * 100 + c * 10 + d, cs)
    | _, _, _, _ => none
  | _ => none

/-- Consume one expected character. -/
def expectChar (ch : Char) : List Char → Option (List Char)
  | c :: cs => if c = ch then some cs else none
  | [] => none

/-- Gregorian leap-year test, as in Python `calendar.isleap`. -/
def isLeapYear (y : Nat) : Bool :=
  (y % 4 == 0 && y % 100 != 0) || y % 400 == 0

/-- Number of days in a month, used by `datetime` to validate the day field. -/
def daysInMonth (y m : Nat) : Nat :=
  if m == 2 then (if isLeapYear y then 29 else 28)
  else if m == 4 || m == 6 || m == 9 || m == 11 then 30
  else 31

/-- Skip an optional fractional-seconds part (a dot followed by digits),
whose value the engine never uses. -/
def skipFraction : List Char → Option (List Char)
  | '.' :: cs =>
    let digits := cs.takeWhile (fun c => (digitVal c).isSome)
    if digits.length = 0 then none else some (cs.drop digits.length)
  | cs => some cs

/-- Parse an optional trailing UTC offset `±HH:MM`; the input must be consumed
completely. Returns the offset in seconds. -/
def parseOffset : List Char → Option (Option Int)
  | [] => some none
  | c :: cs =>
    if c = '+' || c = '-' then
      match parseTwoDigits cs with
      | some (oh, cs1) =>
        match expectChar ':' cs1 with
        | some cs2 =>
          match parseTwoDigits cs2 with
          | some (om, cs3) =>
            if oh ≤ 23 && om ≤ 59 && cs3 = [] then
              let secs : Int := (oh * 3600 + om * 60 : Nat)
              some (some (if c = '+' then secs else -secs))
            else none
          | none => none
        | none => none
      | none => none
    else none

/-- Model of `datetime.fromisoformat` for the timestamp shapes this repository
produces and consumes: `YYYY-MM-DD`, optionally followed by a `T` or space
separator, `HH:MM`, optional `:SS`, optional `.ffffff` (value ignored), and an
optional `±HH:MM` offset. Field ranges are validated as `datetime` does;
`none` models the `ValueError` raised on malformed input. -/
def pyFromIso (s : String) : Option PyDateTime := do
  let (y, r1) ← parseFourDigits s.data
  let r2 ← expectChar '-' r1
  let (mo, r3) ← parseTwoDigits r2
  let r4 ← expectChar '-' r3
  let (d, r5) ← parseTwoDigits r4
  if 1 ≤ y ∧ 1 ≤ mo ∧ mo ≤ 12 ∧ 1 ≤ d ∧ d ≤ daysInMonth y mo then
    match r5 with
    | [] => some ⟨y, mo, d, 0, 0, 0, none⟩
    | sep :: r6 =>
      if sep = 'T' ∨ sep = ' ' then do
        let (hh, r7) ← parseTwoDigits r6
        let r8 ← expectChar ':' r7
        let (mi, r9) ← parseTwoDigits r8
        let (ss, r10) ←
          match r9 with
          | ':' :: r => parseTwoDigits r
          | r => some (0, r)
        let r11 ← skipFraction r10
        let off ← parseOffset r11
        if hh ≤ 23 ∧ mi ≤ 59 ∧ ss ≤ 59 then
          some ⟨y, mo, d, hh, mi, ss, off⟩
        else none
      else none
  else none

/-- Days since 1970-01-01 of a civil date (standard `days_from_civil`
formula, valid for year ≥ 1). -/
def daysFromCivil (y m d : Nat) : Int :=
  let y1 := y - (if m ≤ 2 then 1 else 0)
  let era := y1 / 400
  let yoe := y1 % 400
  let mp := (m + 9) % 12
  let doy := (153 * mp + 2) / 5 + (d - 1)
  let doe := yoe * 365 + yoe / 4 - yoe / 100 + doy
  (era * 146097 + doe : Nat) - (719468 : Int)

/-- Wall-clock seconds of the calendar fields of a `PyDateTime`, ignoring its
offset. -/
def naiveSeconds (dt : PyDateTime) : Int :=
  daysFromCivil dt.year dt.month dt.day * 86400
    + (dt.hour * 3600 + dt.minute * 60 + dt.second : Nat)

/-- Absolute instant (seconds since the epoch, UTC) of an event datetime after
the normalization performed in `check_and_send_reminders`: a naive value is
localized to the process timezone (`timezone.localize`), an aware value is
converted to it (`astimezone`), which leaves the instant unchanged.
`tzOffset` is the fixed offset of the configured process timezone in
seconds. -/
def toAbsSeconds (tzOffset : Int) (dt : PyDateTime) : Int :=
  match dt.tzOffset with
  | none => naiveSeconds dt - tzOffset
  | some off => naiveSeconds dt - off

/-- Zero-pad a number to two digits, as `strftime` field formats do. -/
def pad2 (n : Nat) : String := if n < 10 then "0" ++ toString n else toString n

/-- Zero-pad a year to four digits (`%Y`). -/
def pad4 (n : Nat) : String :=
  if n < 10 then "000" ++ toString n
  else if n < 100 then "00" ++ toString n
  else if n < 1000 then "0" ++ toString n
  else toString n

/-- The `strftime` pattern used by `Event.format_message`. -/
def strftimeRu (dt : PyDateTime) : String :=
  pad2 dt.day ++ "." ++ pad2 dt.month ++ "." ++ pad4 dt.year
    ++ " в " ++ pad2 dt.hour ++ ":" ++ pad2 dt.minute

/-! ### Data model (`database.py`, `models/event.py`, `models/user.py`)

The three tables the engine touches are modelled as lists of rows. -/

/-- Row of the `events` table / the `Event` model, with the defaults the
constructor applies already substituted (`description or ""` etc.). Events
read by the engine always carry their assigned integer `id`. -/
structure Event where
  id : Nat
  title : String
  description : String
  event_datetime : String
  location : String
  format : String
  link : String
  photo_file_id : String
  deriving Repr, DecidableEq

/-- Row of the `users` table. -/
structure UserRow where
  telegram_id : Nat
  is_subscribed : Bool
  deriving Repr, DecidableEq

/-- State of the SQLite database as the engine sees it: `users`, `events` and
the Reminder Ledger table `sent_notifications`, whose rows are keyed by
`(event_id, hours_before)` with a UNIQUE constraint on that pair. -/
structure DBState where
  users : List UserRow
  events : List Event
  ledger : List (Nat × Nat)
  deriving Repr, DecidableEq

/-- `User.get_subscribed_users`: ids of the rows with `is_subscribed = 1`. -/
def get_subscribed_users (s : DBState) : List Nat :=
  (s.users.filter (fun u => u.is_subscribed)).map (fun u => u.telegram_id)

/-- The de-duplication query of `send_upcoming_event_notification`:
`SELECT id FROM sent_notifications WHERE event_id = ? AND hours_before = ?`
is truthy iff a row with that key exists. -/
def ledgerHas (s : DBState) (eventId hoursBefore : Nat) : Bool :=
  s.ledger.any (fun p => p.1 == eventId && p.2 == hoursBefore)

/-- Number of ledger rows with the given key (the UNIQUE constraint keeps
this at most one in reachable states). -/
def countLedger (s : DBState) (eventId hoursBefore : Nat) : Nat :=
  (s.ledger.filter (fun p => p.1 == eventId && p.2 == hoursBefore)).length

/-- Error surface of the database driver relevant to the engine. -/
inductive DBError where
  | uniqueViolation
  deriving Repr, DecidableEq

/-- `INSERT INTO sent_notifications (event_id, hours_before) VALUES (?, ?)`:
fails with an integrity error exactly when the UNIQUE(event_id, hours_before)
constraint is violated. -/
def insertSentNotification (eventId hoursBefore : Nat) (s : DBState) :
    Except DBError DBState :=
  if ledgerHas s eventId hoursBefore then .error .uniqueViolation
  else .ok { s with ledger := s.ledger ++ [(eventId, hoursBefore)] }

/-- `Event.get_upcoming`: `SELECT ... FROM events WHERE event_datetime >= ?
ORDER BY event_datetime ASC` with the current time string bound; TEXT
comparison and ordering are the memcmp order `sqlTextLe`. -/
def Event.get_upcoming (s : DBState) (nowStr : String) : List Event :=
  (s.events.filter (fun e => sqlTextLe nowStr e.event_datetime)).mergeSort
    (fun a b => sqlTextLe a.event_datetime b.event_datetime)

/-! ### Message composition (`Event.format_message` and the reminder text) -/

/-- `Event.format_message`: the human-readable message body. The stored
datetime is reformatted with `strftime("%d.%m.%Y в %H:%M")` when it parses,
and used verbatim otherwise (the bare `except` branch). -/
def Event.format_message (e : Event) : String :=
  let formatted_date :=
    match pyFromIso e.event_datetime with
    | some dt => strftimeRu dt
    | none => e.event_datetime
  let message := "🎯 <b>" ++ e.title ++ "</b>\n\n"
  let message := if e.description = "" then message
    else message ++ e.description ++ "\n\n"
  let message := message ++ "📅 <b>Дата и время:</b> " ++ formatted_date ++ "\n"
  let message := if e.location = "" then message
    else message ++ "📍 <b>Место:</b> " ++ e.location ++ "\n"
  let message := if e.format = "" then message
    else
      let emoji := if e.format = "online" then "💻"
        else if e.format = "offline" then "🏢"
        else if e.format = "hybrid" then "🔀"
        else "📌"
      let text := if e.format = "online" then "Онлайн"
        else if e.format = "offline" then "Офлайн"
        else if e.format = "hybrid" then "Гибрид"
        else e.format
      message ++ emoji ++ " <b>Формат:</b> " ++ text ++ "\n"
  if e.link = "" then message
  else message ++ "\n🔗 <a href=\x27" ++ e.link ++ "\x27>Ссылка на мероприятие</a>"

/-- The hour-unit word chosen in `send_upcoming_event_notification`:
`"час" if hours_before == 1 else "часа" if 2 <= hours_before <= 4 else
"часов"`. -/
def hoursText (hoursBefore : Nat) : String :=
  if hoursBefore = 1 then "час"
  else if 2 ≤ hoursBefore ∧ hoursBefore ≤ 4 then "часа"
  else "часов"

/-- Body of a lead-time reminder. -/
def upcomingMessageText (e : Event) (hoursBefore : Nat) : String :=
  "⏰ <b>Напоминание: через " ++ toString hoursBefore ++ " "
    ++ hoursText hoursBefore ++ "</b>\n\n" ++ e.format_message

/-- Body of a creation-time broadcast. -/
def newEventMessageText (e : Event) : String :=
  "🎉 <b>Новое мероприятие!</b>\n\n" ++ e.format_message

/-- Grammatically correct Russian plural form of the hour unit for a count.
Modelled from the spec: the claim that the unit is the language-appropriate
form for every numeric value is compared against this standard agreement rule
(1, 21, 31, … → "час"; 2–4, 22–24, … → "часа"; teens and the rest →
"часов"). -/
def russianHourUnit (n : Nat) : String :=
  if n % 10 = 1 ∧ n % 100 ≠ 11 then "час"
  else if (2 ≤ n % 10 ∧ n % 10 ≤ 4) ∧ ¬ (12 ≤ n % 100 ∧ n % 100 ≤ 14) then "часа"
  else "часов"

/-! ### Notification service (`services/notification_service.py`)

Side effects of a call are recorded in a trace. Delivery through the bot is
abstracted by an oracle `deliverOk : Nat → Bool` giving the outcome of the
`send_photo`/`send_message` call for each chat id during the fan-out; a
`false` outcome is the per-recipient exception the code catches and logs. -/

/-- Observable effects of the notification service. -/
inductive Effect where
  /-- The fresh read of the subscribed-recipient list. -/
  | readUsers : Effect
  /-- One delivery attempt to a chat id with the composed message; `ok` is
  the outcome of the underlying send call. -/
  | attemptDeliver (chatId : Nat) (message : String) (ok : Bool) : Effect
  /-- The committed INSERT into `sent_notifications`. -/
  | ledgerWrite (eventId hoursBefore : Nat) : Effect
  /-- Entry marker: `check_and_send_reminders` invoked
  `send_upcoming_event_notification` for this (event, lead-hours) pair. -/
  | invokeSend (eventId hoursBefore : Nat) : Effect
  deriving Repr, DecidableEq

/-- Result of a database-touching operation: either a normal return or a
propagating exception, together with the database state at that point (writes
already performed persist when an exception escapes) and the trace of
effects. -/
inductive SendResult where
  | ok (s : DBState) (trace : List Effect)
  | err (e : DBError) (s : DBState) (trace : List Effect)
  deriving Repr, DecidableEq

/-- Database state carried by a `SendResult`. -/
def SendResult.state : SendResult → DBState
  | .ok s _ => s
  | .err _ s _ => s

/-- Effect trace carried by a `SendResult`. -/
def SendResult.trace : SendResult → List Effect
  | .ok _ t => t
  | .err _ _ t => t

/-- `NotificationService.send_new_event_notification(event, bot=None)`:
returns immediately when no bot instance is passed; otherwise reads the
subscribed users and fans the broadcast out to each of them, catching
per-recipient delivery errors. It performs no database write. -/
def send_new_event_notification (deliverOk : Nat → Bool) (bot : Option Unit)
    (e : Event) (s : DBState) : DBState × List Effect :=
  match bot with
  | none => (s, [])
  | some _ =>
    let subscribed := get_subscribed_users s
    let message_text := newEventMessageText e
    (s, Effect.readUsers ::
      subscribed.map (fun u => Effect.attemptDeliver u message_text (deliverOk u)))

/-- `NotificationService.send_upcoming_event_notification(event, hours_before,
bot)`. The parameter `interf` models rows inserted into `sent_notifications`
by a concurrent writer between the de-duplication check and the commit —
empty for the sequential executions the single-threaded runtime produces.
The function has no exception handler around the ledger INSERT, so an
integrity error there escapes as `.err`. -/
def send_upcoming_event_notification (deliverOk : Nat → Bool)
    (interf : List (Nat × Nat)) (e : Event) (hoursBefore : Nat)
    (s : DBState) : SendResult :=
  if ledgerHas s e.id hoursBefore then .ok s []
  else
    let subscribed := get_subscribed_users s
    let message_text := upcomingMessageText e hoursBefore
    let attempts := subscribed.map
      (fun u => Effect.attemptDeliver u message_text (deliverOk u))
    let success_count := (subscribed.filter deliverOk).length
    let sMid : DBState := { s with ledger := s.ledger ++ interf }
    if success_count > 0 then
      match insertSentNotification e.id hoursBefore sMid with
      | .ok s2 => .ok s2 (Effect.readUsers :: attempts
          ++ [Effect.ledgerWrite e.id hoursBefore])
      | .error er => .err er sMid (Effect.readUsers :: attempts)
    else .ok sMid (Effect.readUsers :: attempts)

/-- Inner loop of `check_and_send_reminders` over the configured
`NOTIFICATION_HOURS` for one event whose datetime resolved to the absolute
instant `eventAbs`: for each lead-hours value, when
`abs(current_time - notification_time) <= 60` the single-reminder send is
invoked. An exception escaping the send aborts the remaining lead-hours of
this event. -/
def processHours (deliverOk : Nat → Bool) (interf : List (Nat × Nat))
    (e : Event) (eventAbs : Int) (now : Int) :
    List Nat → DBState → SendResult
  | [], s => .ok s []
  | h :: rest, s =>
    let notification_time := eventAbs - 3600 * (h : Int)
    if (now - notification_time).natAbs ≤ 60 then
      match send_upcoming_event_notification deliverOk interf e h s with
      | .ok s1 t1 =>
        match processHours deliverOk interf e eventAbs now rest s1 with
        | .ok s2 t2 => .ok s2 (Effect.invokeSend e.id h :: t1 ++ t2)
        | .err er s2 t2 => .err er s2 (Effect.invokeSend e.id h :: t1 ++ t2)
      | .err er s1 t1 => .err er s1 (Effect.invokeSend e.id h :: t1)
    else processHours deliverOk interf e eventAbs now rest s

/-- Outer loop of `check_and_send_reminders` over the upcoming events. Each
event is processed inside a `try/except` that logs and moves on: a datetime
that fails to parse, or an exception escaping a send, abandons only that
event for this tick. `tzOffset` is the fixed offset of the configured
process timezone. -/
def processEvents (deliverOk : Nat → Bool) (interf : List (Nat × Nat))
    (tzOffset : Int) (hoursCfg : List Nat) (now : Int) :
    List Event → DBState → DBState × List Effect
  | [], s => (s, [])
  | e :: rest, s =>
    match pyFromIso e.event_datetime with
    | none => processEvents deliverOk interf tzOffset hoursCfg now rest s
    | some dt =>
      let eventAbs := toAbsSeconds tzOffset dt
      match processHours deliverOk interf e eventAbs now hoursCfg s with
      | .ok s1 t1 =>
        let r := processEvents deliverOk interf tzOffset hoursCfg now rest s1
        (r.1, t1 ++ r.2)
      | .err _ s1 t1 =>
        let r := processEvents deliverOk interf tzOffset hoursCfg now rest s1
        (r.1, t1 ++ r.2)

/-- `NotificationService.check_and_send_reminders(bot)`: reads the upcoming
events (`Event.get_upcoming`, bound to the clock string `nowStr`), takes the
current instant `now` in the process timezone, and runs the per-event scan.
The two clock reads are separate parameters because the code reads the clock
twice. -/
def check_and_send_reminders (deliverOk : Nat → Bool) (interf : List (Nat × Nat))
    (tzOffset : Int) (hoursCfg : List Nat) (now : Int) (nowStr : String)
    (s : DBState) : DBState × List Effect :=
  processEvents deliverOk interf tzOffset hoursCfg now
    (Event.get_upcoming s nowStr) s

/-! ### Scheduler driver (`utils/scheduler.py`)

`NotificationScheduler` wraps an APScheduler `AsyncIOScheduler`. The library
behavior relevant here, modelled from APScheduler 3.x `BaseScheduler`: a
scheduler is created in the stopped state; `start()` raises when already
running; `shutdown()` raises `SchedulerNotRunningError` when the scheduler
is not running, and otherwise stops it and discards its pending jobs. -/

/-- Running state of an APScheduler scheduler. -/
inductive SchedState where
  | stopped
  | running
  deriving Repr, DecidableEq

/-- Exceptions raised by the APScheduler lifecycle methods. -/
inductive SchedulerError where
  | schedulerNotRunning
  | schedulerAlreadyRunning
  deriving Repr, DecidableEq

/-- Model of an `AsyncIOScheduler`: its lifecycle state and the ids of its
registered jobs. -/
structure APScheduler where
  state : SchedState
  jobs : List String
  deriving Repr, DecidableEq

/-- `BaseScheduler.add_job(..., id=..., replace_existing=True)`. -/
def APScheduler.add_job (jobId : String) (sc : APScheduler) : APScheduler :=
  { sc with jobs := (sc.jobs.filter (fun j => j ≠ jobId)) ++ [jobId] }

/-- `BaseScheduler.start()`: raises if the scheduler is already running. -/
def APScheduler.start (sc : APScheduler) : Except SchedulerError APScheduler :=
  match sc.state with
  | .running => .error .schedulerAlreadyRunning
  | .stopped => .ok { sc with state := .running }

/-- `BaseScheduler.shutdown()`: raises `SchedulerNotRunningError` if the
scheduler is not running; otherwise stops it, cancelling pending and future
invocations. -/
def APScheduler.shutdown (sc : APScheduler) : Except SchedulerError APScheduler :=
  match sc.state with
  | .stopped => .error .schedulerNotRunning
  | .running => .ok { state := .stopped, jobs := [] }

/-- `NotificationScheduler.__init__`: creates a fresh (stopped)
`AsyncIOScheduler`. -/
def NotificationScheduler.new : APScheduler :=
  { state := .stopped, jobs := [] }

/-- `NotificationScheduler.start`: registers the minutely `check_reminders`
job and starts the scheduler. -/
def NotificationScheduler.start (sc : APScheduler) :
    Except SchedulerError APScheduler :=
  (sc.add_job "check_reminders").start

/-- `NotificationScheduler.stop`: calls `shutdown()` unconditionally. -/
def NotificationScheduler.stop (sc : APScheduler) :
    Except SchedulerError APScheduler :=
  sc.shutdown

/-! ### Concrete instances used by witnesses and counterexamples -/

/-- Delivery oracle under which every send call succeeds. -/
def okAll : Nat → Bool := fun _ => true

/-- Delivery oracle under which every send call fails. -/
def okNone : Nat → Bool := fun _ => false

/-- Delivery oracle under which only chat id 11 fails. -/
def okExcept11 : Nat → Bool := fun u => u ≠ 11

/-- Sample event: 2024-12-25 18:00, stored without timezone suffix. -/
def evA : Event :=
  ⟨1, "T", "", "2024-12-25T18:00:00", "", "offline", "", ""⟩

/-- Parsed form of the sample event datetime. -/
def dtA : PyDateTime := ⟨2024, 12, 25, 18, 0, 0, none⟩

/-- Database holding one subscriber and the sample event, empty ledger. -/
def stA : DBState := ⟨[⟨10, true⟩], [evA], []⟩

/-- Database whose ledger already records the 24-hour reminder for `evA`. -/
def stSent : DBState := ⟨[⟨10, true⟩], [evA], [(1, 24)]⟩

/-- Database with three subscribers and one unsubscribed user. -/
def stThree : DBState :=
  ⟨[⟨10, true⟩, ⟨11, true⟩, ⟨12, true⟩, ⟨13, false⟩], [evA], []⟩

/-- Database with a single subscriber, used for the N = 1 fan-out case. -/
def stSingle : DBState := ⟨[⟨7, true⟩], [evA], []⟩

/-- A scheduler that has been started (the state `main()` leaves it in). -/
def runningScheduler : APScheduler :=
  { state := SchedState.running, jobs := ["check_reminders"] }

/-! ### Helper lemmas -/

theorem charListLe_cons_iff (a b : Char) (as bs : List Char) :
    charListLe (a :: as) (b :: bs) = true ↔
      a.toNat < b.toNat ∨ (a.toNat = b.toNat ∧ charListLe as bs = true) := by
  rcases Nat.lt_trichotomy a.toNat b.toNat with h | h | h
  · simp [charListLe, h]
  · have h1 : ¬ a.toNat < b.toNat := by omega
    have h2 : ¬ b.toNat < a.toNat := by omega
    simp [charListLe, h1, h2, h]
  · have h1 : ¬ a.toNat < b.toNat := by omega
    have h2 : ¬ a.toNat = b.toNat := by omega
    simp [charListLe, h1, h2, h]

theorem charListLe_trans :
    ∀ (a b c : List Char), charListLe a b = true → charListLe b c = true →
      charListLe a c = true
  | [], _, _, _, _ => rfl
  | _ :: _, [], _, h1, _ => by simp [charListLe] at h1
  | _ :: _, _ :: _, [], _, h2 => by simp [charListLe] at h2
  | a :: as, b :: bs, c :: cs, h1, h2 => by
    rw [charListLe_cons_iff] at h1 h2 ⊢
    rcases h1 with h1 | ⟨e1, r1⟩
    · rcases h2 with h2 | ⟨e2, r2⟩
      · exact Or.inl (by omega)
      · exact Or.inl (by omega)
    · rcases h2 with h2 | ⟨e2, r2⟩
      · exact Or.inl (by omega)
      · exact Or.inr ⟨by omega, charListLe_trans as bs cs r1 r2⟩

theorem charListLe_total :
    ∀ (a b : List Char), (charListLe a b || charListLe b a) = true
  | [], _ => by simp [charListLe]
  | _ :: _, [] => by simp [charListLe]
  | a :: as, b :: bs => by
    by_cases h1 : a.toNat < b.toNat
    · simp [charListLe, h1]
    · by_cases h2 : b.toNat < a.toNat
      · simp [charListLe, h1, h2]
      · have := charListLe_total as bs
        simp only [charListLe, if_neg h1, if_neg h2]
        exact this

theorem sqlTextLe_trans (a b c : String) (h1 : sqlTextLe a b = true)
    (h2 : sqlTextLe b c = true) : sqlTextLe a c = true :=
  charListLe_trans a.data b.data c.data h1 h2

theorem sqlTextLe_total (a b : String) : (sqlTextLe a b || sqlTextLe b a) = true :=
  charListLe_total a.data b.data

theorem ledgerHas_of_countLedger_pos {s : DBState} {i h : Nat}
    (hp : 0 < countLedger s i h) : ledgerHas s i h = true := by
  rw [countLedger, List.length_pos] at hp
  obtain ⟨x, hx⟩ := List.exists_mem_of_ne_nil _ hp
  rw [List.mem_filter] at hx
  rw [ledgerHas, List.any_eq_true]
  exact ⟨x, hx.1, hx.2⟩

theorem filter_length_pos_iff_any (l : List Nat) (p : Nat → Bool) :
    0 < (l.filter p).length ↔ l.any p = true := by
  rw [List.length_pos, Ne, List.filter_eq_nil_iff, List.any_eq_true]
  push_neg
  simp

theorem countP_add_countP_not (l : List Nat) (p : Nat → Bool) :
    l.countP p + l.countP (fun a => !(p a)) = l.length := by
  induction l with
  | nil => rfl
  | cons x xs ih =>
    by_cases h : p x <;> simp [List.countP_cons, h] <;> omega

/-! ### Claim theorems -/

/-- C1: if a Reminder Ledger entry for (event.id, hoursBefore) already exists
(and, by the UNIQUE constraint, is the only one), then
`send_upcoming_event_notification` returns immediately with no side effects:
the state is unchanged and no effect (no recipient read, no delivery attempt,
no write) is produced; a second call in succession is equally a no-op, and
after both calls exactly one ledger entry for the pair remains. -/
theorem send_upcoming_idempotent (deliverOk : Nat → Bool)
    (interf : List (Nat × Nat)) (e : Event) (hoursBefore : Nat) (s : DBState)
    (hone : countLedger s e.id hoursBefore = 1) :
    send_upcoming_event_notification deliverOk interf e hoursBefore s =
      SendResult.ok s [] ∧
    send_upcoming_event_notification deliverOk interf e hoursBefore
      (send_upcoming_event_notification deliverOk interf e hoursBefore s).state =
      SendResult.ok s [] ∧
    countLedger
      (send_upcoming_event_notification deliverOk interf e hoursBefore
        (send_upcoming_event_notification deliverOk interf e hoursBefore
          s).state).state e.id hoursBefore = 1 := by
  have hhas : ledgerHas s e.id hoursBefore = true :=
    ledgerHas_of_countLedger_pos (by omega)
  have h1 : send_upcoming_event_notification deliverOk interf e hoursBefore s =
      SendResult.ok s [] := by
    simp [send_upcoming_event_notification, hhas]
  refine ⟨h1, ?_, ?_⟩
  · rw [h1]
    exact h1
  · rw [h1]
    show countLedger (send_upcoming_event_notification deliverOk interf e
      hoursBefore s).state e.id hoursBefore = 1
    rw [h1]
    exact hone

/-- C1 witness: the idempotence theorem applied to a concrete store whose
ledger already holds the (1, 24) entry. -/
theorem send_upcoming_idempotent_witness :
    countLedger stSent evA.id 24 = 1 ∧
    send_upcoming_event_notification okAll [] evA 24 stSent =
      SendResult.ok stSent [] :=
  ⟨by decide, (send_upcoming_idempotent okAll [] evA 24 stSent (by decide)).1⟩

/-- C10: calling `send_new_event_notification` without a bot instance
(`bot = None`, the default) returns immediately: the state is untouched and
the trace is empty, so the recipient list is never read and no delivery is
attempted. -/
theorem send_new_event_none_noop (deliverOk : Nat → Bool) (e : Event)
    (s : DBState) :
    send_new_event_notification deliverOk none e s = (s, []) := rfl

/-- C6: the creation-time broadcast never reads or writes the Reminder
Ledger: it leaves the database state (in particular `sent_notifications`)
unchanged, its trace contains no ledger write, and a subsequent due-reminder
send behaves on the post-broadcast state exactly as on the original state. -/
theorem send_new_event_frame (deliverOk : Nat → Bool) (bot : Option Unit)
    (e : Event) (s : DBState) :
    (send_new_event_notification deliverOk bot e s).1 = s ∧
    ((send_new_event_notification deliverOk bot e s).2.all
      (fun eff => match eff with
        | Effect.ledgerWrite _ _ => false
        | _ => true)) = true ∧
    (∀ (deliverOk2 : Nat → Bool) (interf : List (Nat × Nat)) (e2 : Event)
        (h2 : Nat),
      send_upcoming_event_notification deliverOk2 interf e2 h2
        (send_new_event_notification deliverOk bot e s).1 =
      send_upcoming_event_notification deliverOk2 interf e2 h2 s) := by
  refine ⟨?_, ?_, ?_⟩
  · cases bot <;> rfl
  · cases bot with
    | none => rfl
    | some b =>
      simp only [send_new_event_notification, List.all_cons, List.all_map]
      simp
  · intro deliverOk2 interf e2 h2
    cases bot <;> rfl

/-- C8 counterexample: `stop()` called when `start()` was never called does
not return safely — the unconditional `shutdown()` raises
`SchedulerNotRunningError` on a freshly constructed scheduler. -/
theorem stop_without_start_raises :
    NotificationScheduler.stop NotificationScheduler.new =
      Except.error SchedulerError.schedulerNotRunning := rfl

/-- C8 amended: `stop()` shuts the scheduler down and cancels its pending
jobs when the scheduler is running, but it is not idempotent: calling it
again (or before any `start()`) raises `SchedulerNotRunningError`. -/
theorem stop_only_when_running (sc : APScheduler)
    (hrun : sc.state = SchedState.running) :
    NotificationScheduler.stop sc =
      Except.ok { state := SchedState.stopped, jobs := [] } ∧
    NotificationScheduler.stop { state := SchedState.stopped, jobs := [] } =
      Except.error SchedulerError.schedulerNotRunning := by
  constructor
  · simp [NotificationScheduler.stop, APScheduler.shutdown, hrun]
  · rfl

/-- C8 witness: the amended theorem applied to a started scheduler. -/
theorem stop_only_when_running_witness :
    NotificationScheduler.stop runningScheduler =
      Except.ok { state := SchedState.stopped, jobs := [] } ∧
    NotificationScheduler.stop { state := SchedState.stopped, jobs := [] } =
      Except.error SchedulerError.schedulerNotRunning :=
  stop_only_when_running runningScheduler rfl

/-- C9 counterexample: at leadHours = 24 (a value of the default
configuration) the reminder message uses the unit form "часов", while the
grammatically correct Russian form for 24 is "часа". -/
theorem hoursText_24_not_grammatical :
    upcomingMessageText evA 24 =
      "⏰ <b>Напоминание: через 24 часов</b>\n\n" ++ evA.format_message ∧
    russianHourUnit 24 = "часа" ∧
    hoursText 24 ≠ russianHourUnit 24 := by
  refine ⟨rfl, rfl, ?_⟩
  decide

/-- C9 amended: the reminder text is composed deterministically from the
event's formatted fields plus the lead-hours value, and the three-way unit
rule of the code (1 → "час", 2–4 → "часа", else → "часов") matches the
grammatically correct Russian hour form exactly on 1 ≤ leadHours ≤ 20; for
larger values whose last digit is 1–4 (e.g. 21 or 24) it deviates. -/
theorem upcoming_message_unit_correct_upto_20 (e : Event) (hoursBefore : Nat)
    (h1 : 1 ≤ hoursBefore) (h2 : hoursBefore ≤ 20) :
    upcomingMessageText e hoursBefore =
      "⏰ <b>Напоминание: через " ++ toString hoursBefore ++ " "
        ++ russianHourUnit hoursBefore ++ "</b>\n\n" ++ e.format_message ∧
    hoursText hoursBefore = russianHourUnit hoursBefore := by
  have hu : hoursText hoursBefore = russianHourUnit hoursBefore := by
    interval_cases hoursBefore <;> rfl
  exact ⟨by rw [upcomingMessageText, hu], hu⟩

/-- C9 witness: the amended theorem applied at leadHours = 3. -/
theorem upcoming_message_unit_correct_upto_20_witness :
    hoursText 3 = russianHourUnit 3 :=
  (upcoming_message_unit_correct_upto_20 evA 3 (by decide) (by decide)).2

theorem send_nil_eq (deliverOk : Nat → Bool) (e : Event) (hB : Nat)
    (s : DBState) (hno : ledgerHas s e.id hB = false) :
    send_upcoming_event_notification deliverOk [] e hB s =
      if (get_subscribed_users s).any deliverOk then
        SendResult.ok { s with ledger := s.ledger ++ [(e.id, hB)] }
          (Effect.readUsers :: (get_subscribed_users s).map
            (fun u => Effect.attemptDeliver u (upcomingMessageText e hB)
              (deliverOk u))
            ++ [Effect.ledgerWrite e.id hB])
      else
        SendResult.ok s
          (Effect.readUsers :: (get_subscribed_users s).map
            (fun u => Effect.attemptDeliver u (upcomingMessageText e hB)
              (deliverOk u))) := by
  by_cases hany : (get_subscribed_users s).any deliverOk = true
  · have hpos : 0 < ((get_subscribed_users s).filter deliverOk).length :=
      (filter_length_pos_iff_any _ _).mpr hany
    have hnoMid : ledgerHas { s with ledger := s.ledger ++ [] } e.id hB = false := by
      simpa [ledgerHas, List.append_nil] using hno
    simp only [send_upcoming_event_notification, hno, Bool.false_eq_true,
      if_false, hpos, if_pos, insertSentNotification, hnoMid,
      List.append_nil, hany, if_true]
  · have hz : ¬ 0 < ((get_subscribed_users s).filter deliverOk).length := by
      rw [filter_length_pos_iff_any]
      exact hany
    simp only [send_upcoming_event_notification, hno, Bool.false_eq_true,
      if_false, hz, List.append_nil, hany, Bool.false_eq_true, if_false]

/-- C2: starting from a store with no ledger entry for the pair, the
single-reminder send writes a ledger entry iff at least one per-recipient
delivery succeeded; with no subscribed recipients, or with every delivery
failing, the state is returned unchanged, and in every case the users and
events tables are untouched. -/
theorem send_upcoming_commit_iff (deliverOk : Nat → Bool) (e : Event)
    (hoursBefore : Nat) (s : DBState)
    (hno : ledgerHas s e.id hoursBefore = false) :
    (ledgerHas
        (send_upcoming_event_notification deliverOk [] e hoursBefore s).state
        e.id hoursBefore = true ↔
      (get_subscribed_users s).any deliverOk = true) ∧
    ((get_subscribed_users s).any deliverOk = false →
      (send_upcoming_event_notification deliverOk [] e hoursBefore s).state
        = s) ∧
    ((get_subscribed_users s).any deliverOk = true →
      (send_upcoming_event_notification deliverOk [] e hoursBefore
        s).state.ledger = s.ledger ++ [(e.id, hoursBefore)]) ∧
    (send_upcoming_event_notification deliverOk [] e hoursBefore
      s).state.users = s.users ∧
    (send_upcoming_event_notification deliverOk [] e hoursBefore
      s).state.events = s.events := by
  rw [send_nil_eq deliverOk e hoursBefore s hno]
  by_cases hany : (get_subscribed_users s).any deliverOk = true
  · simp [hany, SendResult.state, ledgerHas]
  · simp only [Bool.not_eq_true] at hany
    simp [hany, SendResult.state, hno]

/-- C2 witness: the commit-iff theorem applied to a store with one
subscriber and a succeeding delivery oracle. -/
theorem send_upcoming_commit_iff_witness :
    ledgerHas stA evA.id 24 = false ∧
    ((get_subscribed_users stA).any okAll = true →
      (send_upcoming_event_notification okAll [] evA 24 stA).state.ledger =
        stA.ledger ++ [(evA.id, 24)]) :=
  ⟨by decide, (send_upcoming_commit_iff okAll evA 24 stA (by decide)).2.2.1⟩

/-- C5 counterexample: a fan-out of N = 1 recipients in which exactly one
delivery call fails; contrary to the claim, no Reminder Ledger entry is
written (the success count is zero) and the state is unchanged. -/
theorem single_recipient_failure_no_ledger :
    (get_subscribed_users stSingle).length = 1 ∧
    (get_subscribed_users stSingle).countP (fun u => !(okNone u)) = 1 ∧
    (send_upcoming_event_notification okNone [] evA 24 stSingle).state
      = stSingle ∧
    ledgerHas
      (send_upcoming_event_notification okNone [] evA 24 stSingle).state
      evA.id 24 = false := by
  refine ⟨by decide, by decide, by decide, by decide⟩

/-- C5 amended: in a fan-out over N ≥ 2 recipients in which exactly one
delivery call fails, the failure does not abort the fan-out — every
subscribed recipient gets a delivery attempt, the other N − 1 succeed — and
the ledger entry is still written, since at least one delivery succeeded.
(For N = 1 the lone failure leaves the success count at zero and no entry is
written.) -/
theorem send_upcoming_isolation (deliverOk : Nat → Bool) (e : Event)
    (hoursBefore : Nat) (s : DBState) (n : Nat)
    (hno : ledgerHas s e.id hoursBefore = false)
    (hlen : (get_subscribed_users s).length = n)
    (hn2 : 2 ≤ n)
    (hfail : (get_subscribed_users s).countP (fun u => !(deliverOk u)) = 1) :
    ((get_subscribed_users s).filter deliverOk).length = n - 1 ∧
    (∀ u ∈ get_subscribed_users s,
      Effect.attemptDeliver u (upcomingMessageText e hoursBefore)
        (deliverOk u) ∈
        (send_upcoming_event_notification deliverOk [] e hoursBefore
          s).trace) ∧
    (send_upcoming_event_notification deliverOk [] e hoursBefore
      s).state.ledger = s.ledger ++ [(e.id, hoursBefore)] ∧
    ledgerHas
      (send_upcoming_event_notification deliverOk [] e hoursBefore s).state
      e.id hoursBefore = true := by
  have hsum := countP_add_countP_not (get_subscribed_users s) deliverOk
  have hcount : (get_subscribed_users s).countP deliverOk = n - 1 := by omega
  have hflen : ((get_subscribed_users s).filter deliverOk).length = n - 1 := by
    rw [← List.countP_eq_length_filter]
    exact hcount
  have hany : (get_subscribed_users s).any deliverOk = true := by
    rw [← filter_length_pos_iff_any, hflen]
    omega
  rw [send_nil_eq deliverOk e hoursBefore s hno]
  refine ⟨hflen, ?_, ?_, ?_⟩
  · intro u hu
    simp only [hany, if_true, SendResult.trace]
    refine List.mem_cons_of_mem _ (List.mem_append_left _ ?_)
    exact List.mem_map_of_mem _ hu
  · simp [hany, SendResult.state]
  · simp [hany, SendResult.state, ledgerHas]

/-- C5 witness: the isolation theorem applied to a store with three
subscribers of which exactly one (chat id 11) fails. -/
theorem send_upcoming_isolation_witness :
    ((get_subscribed_users stThree).filter okExcept11).length = 2 ∧
    (send_upcoming_event_notification okExcept11 [] evA 24
      stThree).state.ledger = stThree.ledger ++ [(evA.id, 24)] :=
  ⟨(send_upcoming_isolation okExcept11 evA 24 stThree 3 (by decide)
      (by decide) (by decide) (by decide)).1,
   (send_upcoming_isolation okExcept11 evA 24 stThree 3 (by decide)
      (by decide) (by decide) (by decide)).2.2.1⟩

/-- C7: the upcoming-events scan returns exactly the stored events whose
`event_datetime` compares at least the current-time string under the TEXT
order used by the query, in ascending `event_datetime` order; in particular
an event whose datetime compares below now is never returned. -/
theorem get_upcoming_spec (s : DBState) (nowStr : String) :
    (∀ e : Event, e ∈ Event.get_upcoming s nowStr ↔
      e ∈ s.events ∧ sqlTextLe nowStr e.event_datetime = true) ∧
    (Event.get_upcoming s nowStr).Pairwise
      (fun a b => sqlTextLe a.event_datetime b.event_datetime = true) := by
  constructor
  · intro e
    rw [Event.get_upcoming, List.mem_mergeSort, List.mem_filter]
  · exact List.sorted_mergeSort
      (fun a b c h1 h2 =>
        sqlTextLe_trans a.event_datetime b.event_datetime c.event_datetime h1 h2)
      (fun a b => sqlTextLe_total a.event_datetime b.event_datetime)
      (s.events.filter (fun e => sqlTextLe nowStr e.event_datetime))

theorem send_nil_ok (deliverOk : Nat → Bool) (e : Event) (hB : Nat)
    (s : DBState) : ∃ s1 t1,
    send_upcoming_event_notification deliverOk [] e hB s =
      SendResult.ok s1 t1 ∧
    ∀ i j, Effect.invokeSend i j ∉ t1 := by
  by_cases hhas : ledgerHas s e.id hB = true
  · refine ⟨s, [], ?_, by simp⟩
    simp [send_upcoming_event_notification, hhas]
  · rw [Bool.not_eq_true] at hhas
    rw [send_nil_eq deliverOk e hB s hhas]
    by_cases hany : (get_subscribed_users s).any deliverOk = true
    · refine ⟨_, _, by rw [if_pos hany], ?_⟩
      intro i j
      simp [List.mem_append, List.mem_map]
    · rw [Bool.not_eq_true] at hany
      refine ⟨s, Effect.readUsers :: (get_subscribed_users s).map
          (fun u => Effect.attemptDeliver u (upcomingMessageText e hB)
            (deliverOk u)), ?_, ?_⟩
      · rw [if_neg (by simp [hany])]
      · intro i j
        simp [List.mem_map]

theorem processHours_nil_ok (deliverOk : Nat → Bool) (e : Event)
    (eventAbs now : Int) :
    ∀ (hs : List Nat) (s : DBState), ∃ s1 t1,
      processHours deliverOk [] e eventAbs now hs s = SendResult.ok s1 t1 ∧
      ∀ i hB, (Effect.invokeSend i hB ∈ t1 ↔
        i = e.id ∧ hB ∈ hs ∧
          (now - (eventAbs - 3600 * (hB : Int))).natAbs ≤ 60) := by
  intro hs
  induction hs with
  | nil =>
    intro s
    exact ⟨s, [], rfl, by simp⟩
  | cons h rest ih =>
    intro s
    by_cases hdue : (now - (eventAbs - 3600 * (h : Int))).natAbs ≤ 60
    · obtain ⟨sA, tA, heqA, hnoInv⟩ := send_nil_ok deliverOk e h s
      obtain ⟨s2, t2, heq2, hiff⟩ := ih sA
      refine ⟨s2, Effect.invokeSend e.id h :: tA ++ t2, ?_, ?_⟩
      · simp only [processHours, if_pos hdue, heqA, heq2]
      · intro i hB
        constructor
        · intro hmem
          rcases List.mem_cons.mp hmem with hhead | htail
          · obtain ⟨hi, hh⟩ := Effect.invokeSend.inj hhead
            subst hi
            subst hh
            exact ⟨rfl, List.mem_cons_self _ _, hdue⟩
          · rcases List.mem_append.mp htail with hA | h2
            · exact absurd hA (hnoInv i hB)
            · obtain ⟨hi, hmem2, hd⟩ := (hiff i hB).mp h2
              exact ⟨hi, List.mem_cons_of_mem _ hmem2, hd⟩
        · rintro ⟨hi, hmem, hd⟩
          rcases List.mem_cons.mp hmem with hb | hb
          · subst hb
            subst hi
            exact List.mem_cons_self _ _
          · exact List.mem_cons_of_mem _
              (List.mem_append_right _ ((hiff i hB).mpr ⟨hi, hb, hd⟩))
    · obtain ⟨s1, t1, heq1, hiff1⟩ := ih s
      refine ⟨s1, t1, ?_, ?_⟩
      · simp only [processHours, if_neg hdue, heq1]
      · intro i hB
        rw [hiff1 i hB]
        constructor
        · rintro ⟨hi, hmem, hd⟩
          exact ⟨hi, List.mem_cons_of_mem _ hmem, hd⟩
        · rintro ⟨hi, hmem, hd⟩
          rcases List.mem_cons.mp hmem with hb | hb
          · subst hb
            exact absurd hd hdue
          · exact ⟨hi, hb, hd⟩

theorem processEvents_invoke_iff (deliverOk : Nat → Bool) (tzOffset : Int)
    (hoursCfg : List Nat) (now : Int) :
    ∀ (es : List Event) (s : DBState) (i hB : Nat),
      Effect.invokeSend i hB ∈
        (processEvents deliverOk [] tzOffset hoursCfg now es s).2 ↔
      ∃ e, e ∈ es ∧ i = e.id ∧ ∃ dt,
        pyFromIso e.event_datetime = some dt ∧ hB ∈ hoursCfg ∧
        (now - (toAbsSeconds tzOffset dt - 3600 * (hB : Int))).natAbs ≤ 60 := by
  intro es
  induction es with
  | nil =>
    intro s i hB
    simp [processEvents]
  | cons e rest ih =>
    intro s i hB
    cases hp : pyFromIso e.event_datetime with
    | none =>
      rw [show processEvents deliverOk [] tzOffset hoursCfg now (e :: rest) s =
          processEvents deliverOk [] tzOffset hoursCfg now rest s by
        simp only [processEvents, hp]]
      rw [ih s i hB]
      constructor
      · rintro ⟨e1, hmem, rest1⟩
        exact ⟨e1, List.mem_cons_of_mem _ hmem, rest1⟩
      · rintro ⟨e1, hmem, hi, dt, hpe, hrest⟩
        rcases List.mem_cons.mp hmem with hb | hb
        · subst hb
          rw [hp] at hpe
          cases hpe
        · exact ⟨e1, hb, hi, dt, hpe, hrest⟩
    | some dt =>
      obtain ⟨s1, t1, heq1, hiff1⟩ :=
        processHours_nil_ok deliverOk e (toAbsSeconds tzOffset dt) now hoursCfg s
      rw [show processEvents deliverOk [] tzOffset hoursCfg now (e :: rest) s =
          ((processEvents deliverOk [] tzOffset hoursCfg now rest s1).1,
            t1 ++ (processEvents deliverOk [] tzOffset hoursCfg now rest s1).2) by
        simp only [processEvents, hp, heq1]]
      simp only [List.mem_append]
      rw [hiff1 i hB, ih s1 i hB]
      constructor
      · rintro (⟨hi, hh, hd⟩ | ⟨e1, hmem, rest1⟩)
        · exact ⟨e, List.mem_cons_self _ _, hi, dt, hp, hh, hd⟩
        · exact ⟨e1, List.mem_cons_of_mem _ hmem, rest1⟩
      · rintro ⟨e1, hmem, hi, dt1, hpe, hh, hd⟩
        rcases List.mem_cons.mp hmem with hb | hb
        · subst hb
          rw [hp] at hpe
          obtain rfl := (Option.some.inj hpe).symm
          exact Or.inl ⟨hi, hh, hd⟩
        · exact Or.inr ⟨e1, hb, hi, dt1, hpe, hh, hd⟩

/-- C3: in a tick of `check_and_send_reminders`, for an upcoming event `e`
(one returned by the scan, with distinct event ids) whose stored datetime
parses to `dt`, and a configured lead-hours value, the single-reminder send
is invoked for the pair iff the absolute difference between the current
instant and the normalized target instant `toAbsSeconds tzOffset dt -
3600 * hB` is at most 60 seconds; otherwise the pair is skipped in this
tick with no send attempt. -/
theorem check_invokes_iff (deliverOk : Nat → Bool) (tzOffset : Int)
    (hoursCfg : List Nat) (now : Int) (nowStr : String) (s : DBState)
    (e : Event) (dt : PyDateTime) (hB : Nat)
    (hnd : ((Event.get_upcoming s nowStr).map Event.id).Nodup)
    (he : e ∈ Event.get_upcoming s nowStr)
    (hp : pyFromIso e.event_datetime = some dt)
    (hh : hB ∈ hoursCfg) :
    Effect.invokeSend e.id hB ∈
      (check_and_send_reminders deliverOk [] tzOffset hoursCfg now nowStr
        s).2 ↔
    (now - (toAbsSeconds tzOffset dt - 3600 * (hB : Int))).natAbs ≤ 60 := by
  rw [check_and_send_reminders,
    processEvents_invoke_iff deliverOk tzOffset hoursCfg now
      (Event.get_upcoming s nowStr) s e.id hB]
  constructor
  · rintro ⟨e1, hmem, hi, dt1, hpe, _, hd⟩
    have he1 : e1 = e :=
      List.inj_on_of_nodup_map hnd hmem he hi.symm
    subst he1
    rw [hp] at hpe
    obtain rfl := Option.some.inj hpe
    exact hd
  · intro hd
    exact ⟨e, he, rfl, dt, hp, hh, hd⟩

/-- C3 witness: the window-matching theorem applied to the spec scenario —
event at 2024-12-25 18:00 (naive, process timezone UTC), scan at
2024-12-24 18:00:30, lead-hours 24 from the default configuration: the
drift is 30 seconds, so the send is invoked. -/
theorem check_invokes_iff_witness :
    (Effect.invokeSend evA.id 24 ∈
      (check_and_send_reminders okAll [] 0 [24, 1] 1735063230
        "2024-12-24T18:00:30" stA).2 ↔
    ((1735063230 : Int) -
      (toAbsSeconds 0 dtA - 3600 * ((24 : Nat) : Int))).natAbs ≤ 60) ∧
    ((1735063230 : Int) -
      (toAbsSeconds 0 dtA - 3600 * ((24 : Nat) : Int))).natAbs ≤ 60 := by
  have hperm : List.Perm
      ((Event.get_upcoming stA "2024-12-24T18:00:30").map Event.id)
      ((stA.events.filter
        (fun e => sqlTextLe "2024-12-24T18:00:30" e.event_datetime)).map
        Event.id) :=
    (List.mergeSort_perm _ _).map Event.id
  have hnd : ((Event.get_upcoming stA "2024-12-24T18:00:30").map
      Event.id).Nodup :=
    hperm.symm.nodup (by decide)
  have he : evA ∈ Event.get_upcoming stA "2024-12-24T18:00:30" :=
    List.mem_mergeSort.mpr (by decide)
  refine ⟨check_invokes_iff okAll 0 [24, 1] 1735063230 "2024-12-24T18:00:30"
    stA evA dtA 24 hnd he rfl (by decide), by decide⟩

/-- C4 counterexample: a ledger row for (1, 24) written by a concurrent
writer between the de-duplication check and the commit makes the INSERT
raise the uniqueness violation, and `send_upcoming_event_notification` has
no handler for it: the error propagates out of the single-reminder send
instead of being absorbed there as an idempotent no-op. -/
theorem send_unique_violation_propagates :
    send_upcoming_event_notification okAll [(1, 24)] evA 24 stA =
      SendResult.err DBError.uniqueViolation stSent
        [Effect.readUsers,
         Effect.attemptDeliver 10 (upcomingMessageText evA 24) true] := rfl

/-- C4 amended: the uniqueness violation escaping the single-reminder send
(aborting the remaining lead-hours of that event for this tick) is absorbed
one level up, by the per-event exception handler of
`check_and_send_reminders`: the scan returns normally, keeps the state the
aborted event left behind, and processes the remaining events. -/
theorem unique_violation_contained (deliverOk : Nat → Bool)
    (interf : List (Nat × Nat)) (tzOffset : Int) (hoursCfg : List Nat)
    (now : Int) (e : Event) (rest : List Event) (s sMid : DBState)
    (t : List Effect) (dt : PyDateTime)
    (hp : pyFromIso e.event_datetime = some dt)
    (hsend : processHours deliverOk interf e (toAbsSeconds tzOffset dt) now
      hoursCfg s = SendResult.err DBError.uniqueViolation sMid t) :
    processEvents deliverOk interf tzOffset hoursCfg now (e :: rest) s =
      ((processEvents deliverOk interf tzOffset hoursCfg now rest sMid).1,
        t ++ (processEvents deliverOk interf tzOffset hoursCfg now rest
          sMid).2) := by
  simp only [processEvents, hp, hsend]

/-- C4 witness: the containment theorem applied to the concrete racing
scenario of the counterexample, inside a due scan tick. -/
theorem unique_violation_contained_witness :
    processEvents okAll [(1, 24)] 0 [24] 1735063230 [evA] stA =
      ((processEvents okAll [(1, 24)] 0 [24] 1735063230 [] stSent).1,
        [Effect.invokeSend 1 24, Effect.readUsers,
          Effect.attemptDeliver 10 (upcomingMessageText evA 24) true] ++
        (processEvents okAll [(1, 24)] 0 [24] 1735063230 [] stSent).2) :=
  unique_violation_contained okAll [(1, 24)] 0 [24] 1735063230 evA [] stA
    stSent
    [Effect.invokeSend 1 24, Effect.readUsers,
      Effect.attemptDeliver 10 (upcomingMessageText evA 24) true]
    dtA rfl (by decide)
